import Mathlib

/-! Multi-plugin `Master` (picongpu/plugins/multi/Master.hpp)

A shallow embedding of the class template `picongpu::plugins::multi::Master`.

* Slave objects (`std::shared_ptr<ISlave>`) are values of a type `S`; the virtual
  methods of `ISlave` are given by a dispatch record `ISlave S E W`.
* Every virtual call may change the outside world `W` and may throw an exception
  of type `E`; a call is therefore a function `W → Except E α × W` (the world
  reached when an exception is thrown is kept).
* Every operation of `Master` returns an `Outcome`: the result (normal return or
  the exception that left the method), the `Master` object afterwards, the world
  afterwards and the trace of virtual calls it made, each with what it returned.
-/

namespace picongpu.plugins.multi

/-- The pointee of a `MappingDesc*`; the null pointer is `none` of `Option MappingDesc`. -/
abbrev MappingDesc := Nat

deriving instance DecidableEq for Except

/-- One virtual call made by `Master`, with its arguments and what came back. -/
inductive Event (S E : Type) where
  | getNumPlugins (numSlaves : Nat)
  | validateOptions (r : Except E Unit)
  | create (i : Nat) (cellDescription : Option MappingDesc) (r : Except E S)
  | restart (slave : S) (restartStep : Nat) (restartDirectory : String) (r : Except E Unit)
  | onParticleLeave (slave : S) (speciesName : String) (direction : Int) (r : Except E Unit)
  | checkpoint (slave : S) (currentStep : Nat) (checkpointDirectory : String) (r : Except E Unit)
  | notify (slave : S) (currentStep : Nat) (r : Except E Unit)
  deriving DecidableEq

/-- Virtual interface `ISlave` of one plugin instance: `restart`, `onParticleLeave`,
`checkpoint` (called by `Master`), and the per-step `notify` of the instance. -/
structure ISlave (S E W : Type) where
  restart : S → Nat → String → W → Except E Unit × W
  onParticleLeave : S → String → Int → W → Except E Unit × W
  checkpoint : S → Nat → String → W → Except E Unit × W
  notify : S → Nat → W → Except E Unit × W

/-- Virtual interface `IHelp` (the object behind `slaveHelp`). `getNumPlugins` is a
`size_t` fixed by the parsed command line; `create` receives the index and the
mapping description (its first argument, `slaveHelp` itself, is left implicit). -/
structure IHelp (S E W : Type) where
  getName : String
  getDescription : String
  getNumPlugins : Nat
  validateOptions : W → Except E Unit × W
  create : Nat → Option MappingDesc → W → Except E S × W

/-- Data members of `Master<T_Slave>`. -/
structure Master (S E W : Type) where
  slaveList : List S
  slaveHelp : IHelp S E W
  m_cellDescription : Option MappingDesc

/-- What a member function of `Master` leaves behind. -/
structure Outcome (S E W : Type) where
  result : Except E Unit
  master : Master S E W
  world : W
  trace : List (Event S E)

variable {S E W : Type}

/-- Constructor `Master()`: `slaveHelp(Slave::getHelp())`, empty `slaveList`,
`m_cellDescription = nullptr`. -/
def Master.new (slaveHelp : IHelp S E W) : Master S E W :=
  { slaveList := [], slaveHelp := slaveHelp, m_cellDescription := none }

/-- The loop `for(auto& slave : slaveList) slave->method(args);` for one virtual
method `call` of the slaves; `ev` records the call. An exception leaves the loop. -/
def forEachSlave (call : S → W → Except E Unit × W) (ev : S → Except E Unit → Event S E) :
    List S → W → Except E Unit × W × List (Event S E)
  | [], w => (.ok (), w, [])
  | slave :: rest, w =>
    match call slave w with
    | (.ok (), w1) =>
      let (r, w2, t) := forEachSlave call ev rest w1
      (r, w2, ev slave (.ok ()) :: t)
    | (.error e, w1) => (.error e, w1, [ev slave (.error e)])

/-- Member `Master::restart(restartStep, restartDirectory)`. -/
def Master.restart (I : ISlave S E W) (m : Master S E W) (restartStep : Nat)
    (restartDirectory : String) (w : W) : Outcome S E W :=
  let (r, w1, t) := forEachSlave (fun slave => I.restart slave restartStep restartDirectory)
    (fun slave => Event.restart slave restartStep restartDirectory) m.slaveList w
  { result := r, master := m, world := w1, trace := t }

/-- Member `Master::onParticleLeave(speciesName, direction)`. -/
def Master.onParticleLeave (I : ISlave S E W) (m : Master S E W) (speciesName : String)
    (direction : Int) (w : W) : Outcome S E W :=
  let (r, w1, t) := forEachSlave (fun slave => I.onParticleLeave slave speciesName direction)
    (fun slave => Event.onParticleLeave slave speciesName direction) m.slaveList w
  { result := r, master := m, world := w1, trace := t }

/-- Member `Master::checkpoint(currentStep, checkpointDirectory)`. -/
def Master.checkpoint (I : ISlave S E W) (m : Master S E W) (currentStep : Nat)
    (checkpointDirectory : String) (w : W) : Outcome S E W :=
  let (r, w1, t) := forEachSlave (fun slave => I.checkpoint slave currentStep checkpointDirectory)
    (fun slave => Event.checkpoint slave currentStep checkpointDirectory) m.slaveList w
  { result := r, master := m, world := w1, trace := t }

/-- The loop `for(size_t i = 0; i < numSlaves; ++i) slaveList.emplace_back(create(slaveHelp, i,
m_cellDescription));` entered at counter `i` with `remaining = numSlaves - i` iterations to go
(`i` stays below the `size_t` value `numSlaves`, so `++i` never wraps). An exception of `create`
leaves the loop with what was appended so far. -/
def createLoop (slaveHelp : IHelp S E W) (cellDescription : Option MappingDesc) :
    Nat → Nat → List S → W → Except E Unit × List S × W × List (Event S E)
  | 0, _, slaveList, w => (.ok (), slaveList, w, [])
  | remaining + 1, i, slaveList, w =>
    match slaveHelp.create i cellDescription w with
    | (.ok slave, w1) =>
      let (r, l, w2, t) := createLoop slaveHelp cellDescription remaining (i + 1) (slaveList ++ [slave]) w1
      (r, l, w2, Event.create i cellDescription (.ok slave) :: t)
    | (.error e, w1) => (.error e, slaveList, w1, [Event.create i cellDescription (.error e)])

/-- Member `Master::pluginLoad()`. -/
def Master.pluginLoad (m : Master S E W) (w : W) : Outcome S E W :=
  let numSlaves := m.slaveHelp.getNumPlugins
  let (v, w0, tv) :=
    if 0 < numSlaves then
      let (r, w0) := m.slaveHelp.validateOptions w
      (r, w0, [Event.validateOptions r])
    else ((.ok () : Except E Unit), w, ([] : List (Event S E)))
  match v with
  | .error e =>
    { result := .error e, master := m, world := w0, trace := Event.getNumPlugins numSlaves :: tv }
  | .ok () =>
    let (r, l, w1, t) := createLoop m.slaveHelp m.m_cellDescription numSlaves 0 m.slaveList w0
    { result := r, master := { m with slaveList := l }, world := w1,
      trace := Event.getNumPlugins numSlaves :: (tv ++ t) }

/-- Member `Master::pluginUnload()`: `slaveList.clear()`. -/
def Master.pluginUnload (m : Master S E W) (w : W) : Outcome S E W :=
  { result := .ok (), master := { m with slaveList := [] }, world := w, trace := [] }

/-- Member `Master::notify(currentStep)`: the body is empty (`// nothing to do here`). -/
def Master.notify (_I : ISlave S E W) (m : Master S E W) (_currentStep : Nat) (w : W) :
    Outcome S E W :=
  { result := .ok (), master := m, world := w, trace := [] }

/-- Member `Master::setMappingDescription(cellDescription)`. -/
def Master.setMappingDescription (m : Master S E W) (cellDescription : Option MappingDesc)
    (w : W) : Outcome S E W :=
  { result := .ok (), master := { m with m_cellDescription := cellDescription }, world := w,
    trace := [] }

/-- Member `Master::pluginGetName()`. -/
def Master.pluginGetName (m : Master S E W) : String :=
  m.slaveHelp.getName ++ ": " ++ m.slaveHelp.getDescription

/-! ## Reading a trace -/

/-- Whether the recorded call ended with an exception. -/
def Event.threw : Event S E → Bool
  | .getNumPlugins _ => false
  | .validateOptions r => !r.toBool
  | .create _ _ r => !r.toBool
  | .restart _ _ _ r => !r.toBool
  | .onParticleLeave _ _ _ r => !r.toBool
  | .checkpoint _ _ _ r => !r.toBool
  | .notify _ _ r => !r.toBool

/-- The slave whose handler the recorded call invoked, if it is a call on a slave. -/
def Event.slave? : Event S E → Option S
  | .restart slave _ _ _ => some slave
  | .onParticleLeave slave _ _ _ => some slave
  | .checkpoint slave _ _ _ => some slave
  | .notify slave _ _ => some slave
  | _ => none

/-- The arguments `(i, cellDescription)` of a recorded `create` call. -/
def Event.createArgs? : Event S E → Option (Nat × Option MappingDesc)
  | .create i cellDescription _ => some (i, cellDescription)
  | _ => none

/-- The slave returned by a recorded `create` call. -/
def Event.created? : Event S E → Option S
  | .create _ _ (.ok slave) => some slave
  | _ => none

/-- Whether the recorded call is a call of `validateOptions`. -/
def Event.isValidateOptions : Event S E → Bool
  | .validateOptions _ => true
  | _ => false

/-- Whether the recorded call is a call on `slaveHelp` (`getNumPlugins`, `validateOptions`,
`create`). -/
def Event.isHelpCall : Event S E → Bool
  | .getNumPlugins _ => true
  | .validateOptions _ => true
  | .create _ _ _ => true
  | _ => false

/-! ## Instrumented test doubles -/

/-- Slaves are numbered; every handler of the slave `bad` (if any) throws
`"InstanceOperationError"`, every other handler returns normally. The world counts the handler
calls made so far. -/
def demoSlave (bad : Option Nat) : ISlave Nat String Nat where
  restart := fun slave _ _ w =>
    (if bad = some slave then .error "InstanceOperationError" else .ok (), w + 1)
  onParticleLeave := fun slave _ _ w =>
    (if bad = some slave then .error "InstanceOperationError" else .ok (), w + 1)
  checkpoint := fun slave _ _ w =>
    (if bad = some slave then .error "InstanceOperationError" else .ok (), w + 1)
  notify := fun slave _ w =>
    (if bad = some slave then .error "InstanceOperationError" else .ok (), w + 1)

/-- A help object asking for `n` slaves: validation passes when `valid`, and `create` returns
slave `10 + i` for index `i`, except at the index `failAt`, where it throws. -/
def demoHelp (n : Nat) (valid : Bool) (failAt : Option Nat) : IHelp Nat String Nat where
  getName := "demo"
  getDescription := "a multi plugin"
  getNumPlugins := n
  validateOptions := fun w => (if valid then .ok () else .error "ConfigurationError", w)
  create := fun i _ w =>
    (if failAt = some i then .error "ConstructionError" else .ok (10 + i), w)

/-! ## A host driving the plugin -/

/-- One call of the host (the plugin connector) on a `Master`. -/
inductive Op where
  | setMappingDescription (cellDescription : Option MappingDesc)
  | pluginLoad
  | pluginUnload
  | notify (currentStep : Nat)
  | onParticleLeave (speciesName : String) (direction : Int)
  | checkpoint (currentStep : Nat) (checkpointDirectory : String)
  | restart (restartStep : Nat) (restartDirectory : String)
  deriving DecidableEq

/-- The member function of `Master` that the host call `op` runs. -/
def Master.call (I : ISlave S E W) (m : Master S E W) (op : Op) (w : W) : Outcome S E W :=
  match op with
  | .setMappingDescription cellDescription => m.setMappingDescription cellDescription w
  | .pluginLoad => m.pluginLoad w
  | .pluginUnload => m.pluginUnload w
  | .notify currentStep => m.notify I currentStep w
  | .onParticleLeave speciesName direction => m.onParticleLeave I speciesName direction w
  | .checkpoint currentStep checkpointDirectory => m.checkpoint I currentStep checkpointDirectory w
  | .restart restartStep restartDirectory => m.restart I restartStep restartDirectory w

/-- The host makes the calls `ops` one after the other on the same `Master`; the first exception
ends the run. -/
def Master.run (I : ISlave S E W) : List Op → Master S E W → W → Outcome S E W
  | [], m, w => { result := .ok (), master := m, world := w, trace := [] }
  | op :: ops, m, w =>
    match (m.call I op w).result with
    | .ok () =>
      { Master.run I ops (m.call I op w).master (m.call I op w).world with
        trace := (m.call I op w).trace ++
          (Master.run I ops (m.call I op w).master (m.call I op w).world).trace }
    | .error _ => m.call I op w

/-- Whether, after the calls `ops`, the most recent of the calls `pluginLoad` and `pluginUnload`
was `pluginLoad`; `loaded` is the answer before `ops`. -/
def loadedAfter (loaded : Bool) : List Op → Bool
  | [] => loaded
  | .pluginLoad :: ops => loadedAfter true ops
  | .pluginUnload :: ops => loadedAfter false ops
  | _ :: ops => loadedAfter loaded ops

/-- The number of `pluginLoad` calls since the most recent `pluginUnload` after the calls `ops`;
`k` is that number before `ops`. -/
def loadsAfter (k : Nat) : List Op → Nat
  | [] => k
  | .pluginLoad :: ops => loadsAfter (k + 1) ops
  | .pluginUnload :: ops => loadsAfter 0 ops
  | _ :: ops => loadsAfter k ops

/-! ## The loop over the slaves -/

/-- One step of the loop when the handler of the first slave returns normally. -/
theorem forEachSlave_cons_ok (call : S → W → Except E Unit × W)
    (ev : S → Except E Unit → Event S E) (slave : S) (rest : List S) (w : W)
    (h : (call slave w).1 = .ok ()) :
    forEachSlave call ev (slave :: rest) w =
      ((forEachSlave call ev rest (call slave w).2).1,
        (forEachSlave call ev rest (call slave w).2).2.1,
        ev slave (.ok ()) :: (forEachSlave call ev rest (call slave w).2).2.2) := by
  rcases hc : call slave w with ⟨r, w1⟩
  rw [hc] at h
  simp only at h
  subst h
  simp only [forEachSlave, hc]

/-- One step of the loop when the handler of the first slave throws. -/
theorem forEachSlave_cons_error (call : S → W → Except E Unit × W)
    (ev : S → Except E Unit → Event S E) (slave : S) (rest : List S) (w : W) (e : E)
    (h : (call slave w).1 = .error e) :
    forEachSlave call ev (slave :: rest) w = (.error e, (call slave w).2, [ev slave (.error e)]) := by
  rcases hc : call slave w with ⟨r, w1⟩
  rw [hc] at h
  simp only at h
  subst h
  simp only [forEachSlave, hc]

/-- A loop that returns normally has called the handler of every slave, once, in list order. -/
theorem forEachSlave_trace_of_ok (call : S → W → Except E Unit × W)
    (ev : S → Except E Unit → Event S E) (l : List S) (w : W)
    (h : (forEachSlave call ev l w).1 = .ok ()) :
    (forEachSlave call ev l w).2.2 = l.map (fun slave => ev slave (.ok ())) := by
  induction l generalizing w with
  | nil => rfl
  | cons slave rest ih =>
    cases hc : (call slave w).1 with
    | ok u =>
      cases u
      rw [forEachSlave_cons_ok call ev slave rest w hc] at h ⊢
      simp only [List.map_cons, List.cons.injEq, true_and]
      exact ih _ h
    | error e =>
      rw [forEachSlave_cons_error call ev slave rest w e hc] at h
      cases h

/-- A loop in whose trace no call threw returns normally: no exception is invented. -/
theorem forEachSlave_ok_of_trace (call : S → W → Except E Unit × W)
    (ev : S → Except E Unit → Event S E) (hev : ∀ slave e, (ev slave (.error e)).threw = true)
    (l : List S) (w : W)
    (h : ∀ x ∈ (forEachSlave call ev l w).2.2, x.threw = false) :
    (forEachSlave call ev l w).1 = .ok () := by
  induction l generalizing w with
  | nil => rfl
  | cons slave rest ih =>
    cases hc : (call slave w).1 with
    | ok u =>
      cases u
      rw [forEachSlave_cons_ok call ev slave rest w hc] at h ⊢
      exact ih _ (fun x hx => h x (List.mem_cons_of_mem _ hx))
    | error e =>
      rw [forEachSlave_cons_error call ev slave rest w e hc] at h
      have := h _ (List.mem_singleton.mpr rfl)
      rw [hev] at this
      cases this

/-- One iteration of the construction loop when `create` returns a slave. -/
theorem createLoop_succ_ok (slaveHelp : IHelp S E W) (cell : Option MappingDesc)
    (remaining i : Nat) (l : List S) (w : W) (slave : S)
    (h : (slaveHelp.create i cell w).1 = .ok slave) :
    createLoop slaveHelp cell (remaining + 1) i l w =
      ((createLoop slaveHelp cell remaining (i + 1) (l ++ [slave]) (slaveHelp.create i cell w).2).1,
        (createLoop slaveHelp cell remaining (i + 1) (l ++ [slave]) (slaveHelp.create i cell w).2).2.1,
        (createLoop slaveHelp cell remaining (i + 1) (l ++ [slave]) (slaveHelp.create i cell w).2).2.2.1,
        Event.create i cell (.ok slave) ::
          (createLoop slaveHelp cell remaining (i + 1) (l ++ [slave])
            (slaveHelp.create i cell w).2).2.2.2) := by
  rcases hc : slaveHelp.create i cell w with ⟨r, w1⟩
  rw [hc] at h
  simp only at h
  subst h
  simp only [createLoop, hc]

/-- One iteration of the construction loop when `create` throws. -/
theorem createLoop_succ_error (slaveHelp : IHelp S E W) (cell : Option MappingDesc)
    (remaining i : Nat) (l : List S) (w : W) (e : E)
    (h : (slaveHelp.create i cell w).1 = .error e) :
    createLoop slaveHelp cell (remaining + 1) i l w =
      (.error e, l, (slaveHelp.create i cell w).2, [Event.create i cell (.error e)]) := by
  rcases hc : slaveHelp.create i cell w with ⟨r, w1⟩
  rw [hc] at h
  simp only at h
  subst h
  simp only [createLoop, hc]

/-- The list left by the construction loop is the list it started from followed by the slaves
that its `create` calls returned, in call order, whether or not the loop ended with an
exception. -/
theorem createLoop_list (slaveHelp : IHelp S E W) (cell : Option MappingDesc)
    (remaining i : Nat) (l : List S) (w : W) :
    (createLoop slaveHelp cell remaining i l w).2.1 =
      l ++ (createLoop slaveHelp cell remaining i l w).2.2.2.filterMap Event.created? := by
  induction remaining generalizing i l w with
  | zero => simp [createLoop]
  | succ remaining ih =>
    cases hc : (slaveHelp.create i cell w).1 with
    | ok slave =>
      rw [createLoop_succ_ok slaveHelp cell remaining i l w slave hc]
      simp only [ih, List.filterMap_cons, Event.created?, List.append_assoc, List.singleton_append]
    | error e =>
      rw [createLoop_succ_error slaveHelp cell remaining i l w e hc]
      simp [Event.created?]

/-- The calls made by the construction loop are `create` calls with the indices `i`, `i + 1`, ...
in this order, each with the mapping description of the loop; there are at most `remaining`. -/
theorem createLoop_args (slaveHelp : IHelp S E W) (cell : Option MappingDesc)
    (remaining i : Nat) (l : List S) (w : W) :
    (createLoop slaveHelp cell remaining i l w).2.2.2.filterMap Event.createArgs? =
        (List.range' i (createLoop slaveHelp cell remaining i l w).2.2.2.length).map
          (fun k => (k, cell)) ∧
      (createLoop slaveHelp cell remaining i l w).2.2.2.length ≤ remaining ∧
      (∀ x ∈ (createLoop slaveHelp cell remaining i l w).2.2.2,
        x.isValidateOptions = false ∧ x.slave? = none) := by
  induction remaining generalizing i l w with
  | zero => simp [createLoop]
  | succ remaining ih =>
    cases hc : (slaveHelp.create i cell w).1 with
    | ok slave =>
      rw [createLoop_succ_ok slaveHelp cell remaining i l w slave hc]
      obtain ⟨h1, h2, h3⟩ := ih (i + 1) (l ++ [slave]) (slaveHelp.create i cell w).2
      refine ⟨?_, ?_, ?_⟩
      · simp only [List.filterMap_cons, Event.createArgs?, h1, List.length_cons, List.range'_succ,
          List.map_cons]
      · simp only [List.length_cons]
        omega
      · intro x hx
        rcases List.mem_cons.mp hx with rfl | hx
        · exact ⟨rfl, rfl⟩
        · exact h3 x hx
    | error e =>
      rw [createLoop_succ_error slaveHelp cell remaining i l w e hc]
      refine ⟨?_, ?_, ?_⟩
      · simp [Event.createArgs?, List.range']
      · simp
      · intro x hx
        rcases List.mem_singleton.mp hx with rfl
        exact ⟨rfl, rfl⟩

/-- A construction loop in whose trace no call threw returns normally after exactly
`remaining` calls of `create`. -/
theorem createLoop_ok_of_trace (slaveHelp : IHelp S E W) (cell : Option MappingDesc)
    (remaining i : Nat) (l : List S) (w : W)
    (h : ∀ x ∈ (createLoop slaveHelp cell remaining i l w).2.2.2, x.threw = false) :
    (createLoop slaveHelp cell remaining i l w).1 = .ok () ∧
      (createLoop slaveHelp cell remaining i l w).2.2.2.length = remaining ∧
      ((createLoop slaveHelp cell remaining i l w).2.2.2.filterMap Event.created?).length
        = remaining := by
  induction remaining generalizing i l w with
  | zero => simp [createLoop]
  | succ remaining ih =>
    cases hc : (slaveHelp.create i cell w).1 with
    | ok slave =>
      rw [createLoop_succ_ok slaveHelp cell remaining i l w slave hc] at h ⊢
      obtain ⟨h1, h2, h3⟩ := ih (i + 1) (l ++ [slave]) (slaveHelp.create i cell w).2
        (fun x hx => h x (List.mem_cons_of_mem _ hx))
      exact ⟨h1, by simp [h2], by simp [Event.created?, h3]⟩
    | error e =>
      rw [createLoop_succ_error slaveHelp cell remaining i l w e hc] at h
      have := h _ (List.mem_singleton.mpr rfl)
      simp [Event.threw, Except.toBool] at this

/-- A construction loop that returned normally made exactly `remaining` calls of `create`,
all of which returned a slave. -/
theorem createLoop_trace_of_ok (slaveHelp : IHelp S E W) (cell : Option MappingDesc)
    (remaining i : Nat) (l : List S) (w : W)
    (h : (createLoop slaveHelp cell remaining i l w).1 = .ok ()) :
    (createLoop slaveHelp cell remaining i l w).2.2.2.length = remaining ∧
      ((createLoop slaveHelp cell remaining i l w).2.2.2.filterMap Event.created?).length
        = remaining ∧
      (∀ x ∈ (createLoop slaveHelp cell remaining i l w).2.2.2, x.threw = false) := by
  induction remaining generalizing i l w with
  | zero => simp [createLoop]
  | succ remaining ih =>
    cases hc : (slaveHelp.create i cell w).1 with
    | ok slave =>
      rw [createLoop_succ_ok slaveHelp cell remaining i l w slave hc] at h ⊢
      obtain ⟨h1, h2, h3⟩ := ih (i + 1) (l ++ [slave]) (slaveHelp.create i cell w).2 h
      refine ⟨by simp [h1], by simp [Event.created?, h2], ?_⟩
      intro x hx
      rcases List.mem_cons.mp hx with rfl | hx
      · rfl
      · exact h3 x hx
    | error e =>
      rw [createLoop_succ_error slaveHelp cell remaining i l w e hc] at h
      cases h

/-- When a `create` call at index `j` threw `e` during the construction loop, the loop ended
with `e` right there: it made the calls `i, ..., j` and nothing after, and `j - i` of them
returned a slave. -/
theorem createLoop_of_mem_error (slaveHelp : IHelp S E W) (cell c : Option MappingDesc)
    (remaining i j : Nat) (l : List S) (w : W) (e : E)
    (h : Event.create j c (.error e) ∈ (createLoop slaveHelp cell remaining i l w).2.2.2) :
    (createLoop slaveHelp cell remaining i l w).1 = .error e ∧ i ≤ j ∧ j < i + remaining ∧
      (createLoop slaveHelp cell remaining i l w).2.2.2.length = j + 1 - i ∧
      ((createLoop slaveHelp cell remaining i l w).2.2.2.filterMap Event.created?).length
        = j - i := by
  induction remaining generalizing i l w with
  | zero => simp [createLoop] at h
  | succ remaining ih =>
    cases hc : (slaveHelp.create i cell w).1 with
    | ok slave =>
      rw [createLoop_succ_ok slaveHelp cell remaining i l w slave hc] at h ⊢
      rcases List.mem_cons.mp h with h | h
      · cases h
      · obtain ⟨h1, h2, h3, h4, h5⟩ := ih (i + 1) (l ++ [slave]) (slaveHelp.create i cell w).2 h
        refine ⟨h1, by omega, by omega, ?_, ?_⟩
        · simp only [List.length_cons, h4]
          omega
        · simp only [List.filterMap_cons, Event.created?, List.length_cons, h5]
          omega
    | error e2 =>
      rw [createLoop_succ_error slaveHelp cell remaining i l w e2 hc] at h ⊢
      rcases List.mem_singleton.mp h with h
      cases h
      exact ⟨rfl, le_refl _, by omega, by simp, by simp [Event.created?]⟩

/-! ## Loading -/

/-- Loading when no slave is requested: no validation, no construction. -/
theorem pluginLoad_of_zero (m : Master S E W) (w : W) (hn : m.slaveHelp.getNumPlugins = 0) :
    m.pluginLoad w = { result := .ok (), master := m, world := w,
                       trace := [Event.getNumPlugins 0] } := by
  simp [Master.pluginLoad, hn, createLoop]

/-- Loading when validation throws: the exception leaves `pluginLoad` before the loop. -/
theorem pluginLoad_of_invalid (m : Master S E W) (w : W) (e : E)
    (hn : 0 < m.slaveHelp.getNumPlugins) (hv : (m.slaveHelp.validateOptions w).1 = .error e) :
    m.pluginLoad w = { result := .error e, master := m, world := (m.slaveHelp.validateOptions w).2,
                       trace := [Event.getNumPlugins m.slaveHelp.getNumPlugins,
                                 Event.validateOptions (.error e)] } := by
  rcases hc : m.slaveHelp.validateOptions w with ⟨r, w0⟩
  rw [hc] at hv
  simp only at hv
  subst hv
  simp [Master.pluginLoad, hn, hc]

/-- Loading when validation passes: the construction loop runs from index `0`. -/
theorem pluginLoad_of_valid (m : Master S E W) (w : W)
    (hn : 0 < m.slaveHelp.getNumPlugins) (hv : (m.slaveHelp.validateOptions w).1 = .ok ()) :
    m.pluginLoad w =
      { result := (createLoop m.slaveHelp m.m_cellDescription m.slaveHelp.getNumPlugins 0
          m.slaveList (m.slaveHelp.validateOptions w).2).1,
        master := { m with slaveList :=
          (createLoop m.slaveHelp m.m_cellDescription m.slaveHelp.getNumPlugins 0
            m.slaveList (m.slaveHelp.validateOptions w).2).2.1 },
        world := (createLoop m.slaveHelp m.m_cellDescription m.slaveHelp.getNumPlugins 0
          m.slaveList (m.slaveHelp.validateOptions w).2).2.2.1,
        trace := Event.getNumPlugins m.slaveHelp.getNumPlugins :: Event.validateOptions (.ok ()) ::
          (createLoop m.slaveHelp m.m_cellDescription m.slaveHelp.getNumPlugins 0
            m.slaveList (m.slaveHelp.validateOptions w).2).2.2.2 } := by
  rcases hc : m.slaveHelp.validateOptions w with ⟨r, w0⟩
  rw [hc] at hv
  simp only at hv
  subst hv
  simp [Master.pluginLoad, hn, hc]

/-- Whatever happens, `pluginLoad` only appends: the list afterwards is the list before followed
by the slaves its `create` calls returned; `slaveHelp` and `m_cellDescription` stay. -/
theorem pluginLoad_master (m : Master S E W) (w : W) :
    (m.pluginLoad w).master.slaveList =
        m.slaveList ++ (m.pluginLoad w).trace.filterMap Event.created? ∧
      (m.pluginLoad w).master.slaveHelp = m.slaveHelp ∧
      (m.pluginLoad w).master.m_cellDescription = m.m_cellDescription := by
  rcases Nat.eq_zero_or_pos m.slaveHelp.getNumPlugins with hn | hn
  · rw [pluginLoad_of_zero m w hn]
    simp [Event.created?]
  · cases hv : (m.slaveHelp.validateOptions w).1 with
    | ok u =>
      cases u
      rw [pluginLoad_of_valid m w hn hv]
      refine ⟨?_, rfl, rfl⟩
      simp only [List.filterMap_cons, Event.created?]
      exact createLoop_list _ _ _ _ _ _
    | error e =>
      rw [pluginLoad_of_invalid m w e hn hv]
      simp [Event.created?]

/-- Whatever happens, `validateOptions` is called by `pluginLoad` exactly when the number of
requested slaves is positive, and then once. -/
theorem pluginLoad_validate_calls (m : Master S E W) (w : W) :
    ((m.pluginLoad w).trace.filter Event.isValidateOptions).length =
      if 0 < m.slaveHelp.getNumPlugins then 1 else 0 := by
  have hfilter : ∀ t : List (Event S E), (∀ x ∈ t, x.isValidateOptions = false ∧ x.slave? = none) →
      t.filter Event.isValidateOptions = [] := by
    intro t ht
    exact List.filter_eq_nil_iff.mpr (fun x hx => by simp [(ht x hx).1])
  rcases Nat.eq_zero_or_pos m.slaveHelp.getNumPlugins with hn | hn
  · rw [pluginLoad_of_zero m w hn]
    simp [hn, Event.isValidateOptions, List.filter]
  · cases hv : (m.slaveHelp.validateOptions w).1 with
    | ok u =>
      cases u
      rw [pluginLoad_of_valid m w hn hv]
      simp [hn, Event.isValidateOptions, List.filter, hfilter _ (createLoop_args _ _ _ _ _ _).2.2]
    | error e =>
      rw [pluginLoad_of_invalid m w e hn hv]
      simp [hn, Event.isValidateOptions, List.filter]

/-- A load in whose trace no call threw returns normally, after `create` calls with the indices
`0, ..., numSlaves - 1` in this order, each with the bound mapping description and each
returning a slave. -/
theorem pluginLoad_of_trace_ok (m : Master S E W) (w : W)
    (hok : ∀ x ∈ (m.pluginLoad w).trace, x.threw = false) :
    (m.pluginLoad w).result = .ok () ∧
      (m.pluginLoad w).trace.filterMap Event.createArgs? =
        (List.range m.slaveHelp.getNumPlugins).map (fun k => (k, m.m_cellDescription)) ∧
      ((m.pluginLoad w).trace.filterMap Event.created?).length = m.slaveHelp.getNumPlugins := by
  rcases Nat.eq_zero_or_pos m.slaveHelp.getNumPlugins with hn | hn
  · rw [pluginLoad_of_zero m w hn]
    simp [hn, Event.createArgs?, Event.created?]
  · cases hv : (m.slaveHelp.validateOptions w).1 with
    | ok u =>
      cases u
      rw [pluginLoad_of_valid m w hn hv] at hok ⊢
      have hloop := createLoop_ok_of_trace m.slaveHelp m.m_cellDescription
        m.slaveHelp.getNumPlugins 0 m.slaveList (m.slaveHelp.validateOptions w).2
        (fun x hx => hok x (List.mem_cons_of_mem _ (List.mem_cons_of_mem _ hx)))
      have hargs := (createLoop_args m.slaveHelp m.m_cellDescription
        m.slaveHelp.getNumPlugins 0 m.slaveList (m.slaveHelp.validateOptions w).2).1
      rw [hloop.2.1] at hargs
      refine ⟨hloop.1, ?_, ?_⟩
      · simp only [List.filterMap_cons, Event.createArgs?, hargs, List.range_eq_range']
      · simp only [List.filterMap_cons, Event.created?, hloop.2.2]
    | error e =>
      rw [pluginLoad_of_invalid m w e hn hv] at hok
      have := hok (Event.validateOptions (.error e)) (by simp)
      simp [Event.threw, Except.toBool] at this

/-- A load that returned normally made no call that threw. -/
theorem pluginLoad_trace_of_ok (m : Master S E W) (w : W)
    (h : (m.pluginLoad w).result = .ok ()) :
    ∀ x ∈ (m.pluginLoad w).trace, x.threw = false := by
  rcases Nat.eq_zero_or_pos m.slaveHelp.getNumPlugins with hn | hn
  · rw [pluginLoad_of_zero m w hn]
    simp [Event.threw]
  · cases hv : (m.slaveHelp.validateOptions w).1 with
    | ok u =>
      cases u
      rw [pluginLoad_of_valid m w hn hv] at h ⊢
      intro x hx
      rcases List.mem_cons.mp hx with rfl | hx
      · rfl
      rcases List.mem_cons.mp hx with rfl | hx
      · rfl
      exact (createLoop_trace_of_ok _ _ _ _ _ _ h).2.2 x hx
    | error e =>
      rw [pluginLoad_of_invalid m w e hn hv] at h
      cases h

/-! ## The host run -/

/-- The fan-out members do not touch the `Master` object. -/
theorem fanout_master (I : ISlave S E W) (m : Master S E W) (step : Nat) (dir name : String)
    (direction : Int) (w : W) :
    (m.restart I step dir w).master = m ∧ (m.onParticleLeave I name direction w).master = m ∧
      (m.checkpoint I step dir w).master = m :=
  ⟨rfl, rfl, rfl⟩

/-- A run goes on after a call that returned normally. -/
theorem run_cons_ok (I : ISlave S E W) (op : Op) (ops : List Op) (m : Master S E W) (w : W)
    (h : (m.call I op w).result = .ok ()) :
    (Master.run I (op :: ops) m w).result =
        (Master.run I ops (m.call I op w).master (m.call I op w).world).result ∧
      (Master.run I (op :: ops) m w).master =
        (Master.run I ops (m.call I op w).master (m.call I op w).world).master := by
  simp only [Master.run, h, and_self]

/-- A run ends at a call that threw. -/
theorem run_cons_error (I : ISlave S E W) (op : Op) (ops : List Op) (m : Master S E W) (w : W)
    (e : E) (h : (m.call I op w).result = .error e) :
    Master.run I (op :: ops) m w = m.call I op w := by
  simp only [Master.run, h]

/-- Along a run of calls that all returned normally, the list holds `numSlaves` slaves for every
`pluginLoad` since the most recent `pluginUnload`. -/
theorem run_length (I : ISlave S E W) (ops : List Op) (m : Master S E W) (w : W) (k : Nat)
    (hlen : m.slaveList.length = m.slaveHelp.getNumPlugins * k)
    (hok : (Master.run I ops m w).result = .ok ()) :
    (Master.run I ops m w).master.slaveList.length =
      m.slaveHelp.getNumPlugins * loadsAfter k ops := by
  induction ops generalizing m w k with
  | nil => simpa [Master.run, loadsAfter] using hlen
  | cons op ops ih =>
    cases hc : (m.call I op w).result with
    | error e =>
      rw [run_cons_error I op ops m w e hc, hc] at hok
      cases hok
    | ok u =>
      cases u
      rw [(run_cons_ok I op ops m w hc).1] at hok
      rw [(run_cons_ok I op ops m w hc).2]
      cases op with
      | setMappingDescription c => exact ih _ _ k hlen hok
      | pluginLoad =>
        have hm := pluginLoad_master m w
        have hcount := (pluginLoad_of_trace_ok m w (pluginLoad_trace_of_ok m w hc)).2.2
        have hlen2 : (m.pluginLoad w).master.slaveList.length =
            (m.pluginLoad w).master.slaveHelp.getNumPlugins * (k + 1) := by
          rw [hm.1, hm.2.1, List.length_append, hcount, hlen, Nat.mul_succ]
        have := ih (m.pluginLoad w).master (m.pluginLoad w).world (k + 1) hlen2 hok
        rw [hm.2.1] at this
        exact this
      | pluginUnload => exact ih (m.pluginUnload w).master _ 0 (by simp [Master.pluginUnload]) hok
      | notify step => exact ih _ _ k hlen hok
      | onParticleLeave name d => exact ih _ _ k hlen hok
      | checkpoint step dir => exact ih _ _ k hlen hok
      | restart step dir => exact ih _ _ k hlen hok

/-- When the most recent of `pluginLoad` and `pluginUnload` is not `pluginLoad`, no
`pluginLoad` was made since the most recent `pluginUnload`. -/
theorem loadsAfter_of_not_loaded (ops : List Op) (b : Bool) (k : Nat) (hb : b = false → k = 0)
    (h : loadedAfter b ops = false) : loadsAfter k ops = 0 := by
  induction ops generalizing b k with
  | nil => exact hb h
  | cons op ops ih =>
    cases op with
    | pluginLoad => exact ih true (k + 1) (fun hf => by cases hf) h
    | pluginUnload => exact ih false 0 (fun _ => rfl) h
    | setMappingDescription c => exact ih b k hb h
    | notify step => exact ih b k hb h
    | onParticleLeave name d => exact ih b k hb h
    | checkpoint step dir => exact ih b k hb h
    | restart step dir => exact ih b k hb h

/-- The slaves visited by a trace that records one handler call per slave of `l` are `l`. -/
theorem visited_map (ev : S → Event S E) (hev : ∀ slave, (ev slave).slave? = some slave)
    (l : List S) : (l.map ev).filterMap Event.slave? = l := by
  induction l with
  | nil => rfl
  | cons slave rest ih => simp only [List.map_cons, List.filterMap_cons, hev, ih]

/-! ## Frame lemmas -/

/-- No host call replaces `slaveHelp`, whether it returns normally or throws. -/
theorem call_slaveHelp (I : ISlave S E W) (m : Master S E W) (op : Op) (w : W) :
    (m.call I op w).master.slaveHelp = m.slaveHelp := by
  cases op with
  | pluginLoad => exact (pluginLoad_master m w).2.1
  | setMappingDescription c => rfl
  | pluginUnload => rfl
  | notify step => rfl
  | onParticleLeave name d => rfl
  | checkpoint step dir => rfl
  | restart step dir => rfl

/-- No run of host calls replaces `slaveHelp`, however it ends. -/
theorem run_slaveHelp (I : ISlave S E W) (ops : List Op) (m : Master S E W) (w : W) :
    (Master.run I ops m w).master.slaveHelp = m.slaveHelp := by
  induction ops generalizing m w with
  | nil => rfl
  | cons op ops ih =>
    cases hc : (m.call I op w).result with
    | error e =>
      rw [run_cons_error I op ops m w e hc]
      exact call_slaveHelp I m op w
    | ok u =>
      cases u
      rw [(run_cons_ok I op ops m w hc).2, ih]
      exact call_slaveHelp I m op w

/-- Every `create` call of the construction loop gets the mapping description of the loop. -/
theorem createLoop_create_cell (slaveHelp : IHelp S E W) (cell c : Option MappingDesc)
    (remaining i j : Nat) (l : List S) (w : W) (r : Except E S)
    (h : Event.create j c r ∈ (createLoop slaveHelp cell remaining i l w).2.2.2) : c = cell := by
  induction remaining generalizing i l w with
  | zero => simp [createLoop] at h
  | succ remaining ih =>
    cases hc : (slaveHelp.create i cell w).1 with
    | ok slave =>
      rw [createLoop_succ_ok slaveHelp cell remaining i l w slave hc] at h
      rcases List.mem_cons.mp h with h | h
      · cases h
        rfl
      · exact ih _ _ _ h
    | error e =>
      rw [createLoop_succ_error slaveHelp cell remaining i l w e hc] at h
      rcases List.mem_singleton.mp h with h
      cases h
      rfl

/-- Every `create` call of `pluginLoad` gets the `m_cellDescription` of the `Master`, whether
the load returns normally or throws. -/
theorem pluginLoad_create_cell (m : Master S E W) (w : W) (j : Nat) (c : Option MappingDesc)
    (r : Except E S) (h : Event.create j c r ∈ (m.pluginLoad w).trace) :
    c = m.m_cellDescription := by
  rcases Nat.eq_zero_or_pos m.slaveHelp.getNumPlugins with hn | hn
  · rw [pluginLoad_of_zero m w hn] at h
    simp at h
  · cases hv : (m.slaveHelp.validateOptions w).1 with
    | error e =>
      rw [pluginLoad_of_invalid m w e hn hv] at h
      simp at h
    | ok u =>
      cases u
      rw [pluginLoad_of_valid m w hn hv] at h
      simp only [List.mem_cons, reduceCtorEq, false_or] at h
      exact createLoop_create_cell _ _ _ _ _ _ _ _ _ h

/-- The loop over the slaves records handler calls only: when `ev` never builds a call on
`slaveHelp`, the trace holds none. -/
theorem forEachSlave_no_help_call (call : S → W → Except E Unit × W)
    (ev : S → Except E Unit → Event S E) (hev : ∀ slave r, (ev slave r).isHelpCall = false)
    (l : List S) (w : W) :
    ∀ x ∈ (forEachSlave call ev l w).2.2, x.isHelpCall = false := by
  induction l generalizing w with
  | nil =>
    intro x hx
    simp [forEachSlave] at hx
  | cons slave rest ih =>
    cases hc : (call slave w).1 with
    | ok u =>
      cases u
      rw [forEachSlave_cons_ok call ev slave rest w hc]
      intro x hx
      rcases List.mem_cons.mp hx with rfl | hx
      · exact hev _ _
      · exact ih _ x hx
    | error e =>
      rw [forEachSlave_cons_error call ev slave rest w e hc]
      intro x hx
      rcases List.mem_singleton.mp hx with rfl
      exact hev _ _

/-- A load that returned normally appended the slaves returned by `create` calls with the
indices `0, ..., numSlaves - 1`, in this order. -/
theorem pluginLoad_of_ok (m : Master S E W) (w : W) (h : (m.pluginLoad w).result = .ok ()) :
    (m.pluginLoad w).trace.filterMap Event.createArgs? =
        (List.range m.slaveHelp.getNumPlugins).map (fun k => (k, m.m_cellDescription)) ∧
      ((m.pluginLoad w).trace.filterMap Event.created?).length = m.slaveHelp.getNumPlugins ∧
      (m.pluginLoad w).master.slaveList.length =
        m.slaveList.length + m.slaveHelp.getNumPlugins := by
  obtain ⟨_, h2, h3⟩ := pluginLoad_of_trace_ok m w (pluginLoad_trace_of_ok m w h)
  refine ⟨h2, h3, ?_⟩
  rw [(pluginLoad_master m w).1, List.length_append, h3]

/-- When the handler of every slave of the list, called on the world left by the handlers of the
slaves before it, returns normally, the loop returns normally, has run the handlers one after the
other in list order, and has recorded one call per slave. -/
theorem forEachSlave_of_handlers_ok (call : S → W → Except E Unit × W)
    (ev : S → Except E Unit → Event S E) (l : List S) (w : W)
    (h : ∀ (pre : List S) (slave : S) (post : List S), l = pre ++ slave :: post →
      (call slave (pre.foldl (fun w1 s => (call s w1).2) w)).1 = .ok ()) :
    forEachSlave call ev l w =
      (.ok (), l.foldl (fun w1 s => (call s w1).2) w, l.map (fun slave => ev slave (.ok ()))) := by
  induction l generalizing w with
  | nil => rfl
  | cons slave rest ih =>
    have h0 : (call slave w).1 = .ok () := h [] slave rest rfl
    have hrest := ih (call slave w).2 (fun pre s post hl =>
      h (slave :: pre) s post (by rw [hl, List.cons_append]))
    rw [forEachSlave_cons_ok call ev slave rest w h0, hrest]
    rfl

/-! ## The claims -/

/-- C1: on a freshly constructed `Master` (empty list), whatever number `n` of slaves
`getNumPlugins` returns, a `pluginLoad` during which neither `validateOptions` nor any `create`
throws returns normally and leaves exactly `n` slaves in the list, and `validateOptions` was
called if and only if `n > 0`. -/
theorem pluginLoad_fresh_holds_requested_count (slaveHelp : IHelp S E W) (w : W)
    (hok : ∀ x ∈ ((Master.new slaveHelp).pluginLoad w).trace, x.threw = false) :
    ((Master.new slaveHelp).pluginLoad w).result = .ok () ∧
      ((Master.new slaveHelp).pluginLoad w).master.slaveList.length = slaveHelp.getNumPlugins ∧
      ((∃ x ∈ ((Master.new slaveHelp).pluginLoad w).trace, x.isValidateOptions = true) ↔
        0 < slaveHelp.getNumPlugins) := by
  obtain ⟨h1, _, h3⟩ := pluginLoad_of_trace_ok (Master.new slaveHelp) w hok
  refine ⟨h1, ?_, ?_⟩
  · rw [(pluginLoad_master (Master.new slaveHelp) w).1]
    simpa [Master.new] using h3
  · have hv := pluginLoad_validate_calls (Master.new slaveHelp) w
    constructor
    · rintro ⟨x, hx, hxv⟩
      by_contra hn
      have hpos : 0 < (((Master.new slaveHelp).pluginLoad w).trace.filter
          Event.isValidateOptions).length :=
        List.length_pos_of_mem (List.mem_filter.mpr ⟨hx, hxv⟩)
      have hn2 : ¬ 0 < (Master.new slaveHelp).slaveHelp.getNumPlugins := hn
      rw [hv, if_neg hn2] at hpos
      exact absurd hpos (by decide)
    · intro hn
      have hn2 : 0 < (Master.new slaveHelp).slaveHelp.getNumPlugins := hn
      rw [if_pos hn2] at hv
      obtain ⟨x, hx⟩ := List.exists_mem_of_length_pos (by rw [hv]; exact Nat.one_pos)
      exact ⟨x, (List.mem_filter.mp hx).1, (List.mem_filter.mp hx).2⟩

/-- C1, witness: three requested slaves, nothing throws. -/
theorem pluginLoad_fresh_holds_requested_count_witness :
    (∀ x ∈ ((Master.new (demoHelp 3 true none)).pluginLoad 0).trace, x.threw = false) ∧
      ((Master.new (demoHelp 3 true none)).pluginLoad 0).result = .ok () ∧
      ((Master.new (demoHelp 3 true none)).pluginLoad 0).master.slaveList.length = 3 :=
  ⟨by decide,
    (pluginLoad_fresh_holds_requested_count (demoHelp 3 true none) 0 (by decide)).1,
    (pluginLoad_fresh_holds_requested_count (demoHelp 3 true none) 0 (by decide)).2.1⟩

/-- C2, counterexample: three slaves are requested on a fresh `Master` (empty list). When
`validateOptions` throws, `pluginLoad` makes no `create` call at all, and when `create` throws at
index `1` it makes two `create` calls and one slave is in the list: not three calls. -/
theorem pluginLoad_always_n_creates_counterexample :
    (Master.new (demoHelp 3 false none)).slaveList = [] ∧
      (demoHelp 3 false none).getNumPlugins = 3 ∧
      (((Master.new (demoHelp 3 false none)).pluginLoad 0).trace.filterMap
        Event.createArgs?).length = 0 ∧
      ((Master.new (demoHelp 3 false none)).pluginLoad 0).trace =
        [Event.getNumPlugins 3, Event.validateOptions (.error "ConfigurationError")] ∧
      (demoHelp 3 true (some 1)).getNumPlugins = 3 ∧
      (((Master.new (demoHelp 3 true (some 1))).pluginLoad 0).trace.filterMap
        Event.createArgs?).length = 2 ∧
      ((Master.new (demoHelp 3 true (some 1))).pluginLoad 0).master.slaveList.length = 1 := by
  decide

/-- C2, amended: a `pluginLoad` on an empty list during which neither `validateOptions` nor any
`create` call throws makes exactly `n` calls of `create`; the k-th call gets the index `k` and the
mapping description bound at that time (the same for all calls), and the list afterwards, front
to back, is the list of the slaves returned by the calls `0, ..., n - 1` in this order. -/
theorem pluginLoad_creates_in_request_order (m : Master S E W) (w : W)
    (hempty : m.slaveList = [])
    (hok : ∀ x ∈ (m.pluginLoad w).trace, x.threw = false) :
    (m.pluginLoad w).trace.filterMap Event.createArgs? =
        (List.range m.slaveHelp.getNumPlugins).map (fun k => (k, m.m_cellDescription)) ∧
      ((m.pluginLoad w).trace.filterMap Event.createArgs?).length = m.slaveHelp.getNumPlugins ∧
      (m.pluginLoad w).master.slaveList = (m.pluginLoad w).trace.filterMap Event.created? ∧
      (m.pluginLoad w).master.slaveList.length = m.slaveHelp.getNumPlugins := by
  obtain ⟨_, h2, h3⟩ := pluginLoad_of_trace_ok m w hok
  have h4 := (pluginLoad_master m w).1
  rw [hempty, List.nil_append] at h4
  refine ⟨h2, ?_, h4, ?_⟩
  · rw [h2]
    simp
  · rw [h4, h3]

/-- C2, witness: the mapping description `7` is bound, then three slaves are loaded. -/
theorem pluginLoad_creates_in_request_order_witness :
    (((Master.new (demoHelp 3 true none)).setMappingDescription (some 7) 0).master.pluginLoad
        0).trace.filterMap Event.createArgs? = [(0, some 7), (1, some 7), (2, some 7)] ∧
      (((Master.new (demoHelp 3 true none)).setMappingDescription (some 7) 0).master.pluginLoad
        0).master.slaveList = [10, 11, 12] :=
  ⟨(pluginLoad_creates_in_request_order
      ((Master.new (demoHelp 3 true none)).setMappingDescription (some 7) 0).master 0
      (by decide) (by decide)).1.trans (by decide),
    (pluginLoad_creates_in_request_order
      ((Master.new (demoHelp 3 true none)).setMappingDescription (some 7) 0).master 0
      (by decide) (by decide)).2.2.1.trans (by decide)⟩

/-- C3: for every list of slaves and every `currentStep` and `checkpointDirectory`, when no
handler fails (the `checkpoint` handler of every slave, called on the world left by the handlers
of the slaves before it, returns normally), `checkpoint` returns normally after running the
`checkpoint` handler of every slave exactly once, in list order (the order of construction), each
with the very `currentStep` and `checkpointDirectory` it was given: the world afterwards is the
one reached by running these handlers one after the other, and the calls made are one per slave
in list order. -/
theorem checkpoint_calls_every_slave_in_order (I : ISlave S E W) (m : Master S E W)
    (currentStep : Nat) (checkpointDirectory : String) (w : W)
    (hok : ∀ (pre : List S) (slave : S) (post : List S), m.slaveList = pre ++ slave :: post →
      (I.checkpoint slave currentStep checkpointDirectory
        (pre.foldl (fun w1 s => (I.checkpoint s currentStep checkpointDirectory w1).2) w)).1
        = .ok ()) :
    (m.checkpoint I currentStep checkpointDirectory w).result = .ok () ∧
      (m.checkpoint I currentStep checkpointDirectory w).trace =
        m.slaveList.map
          (fun slave => Event.checkpoint slave currentStep checkpointDirectory (.ok ())) ∧
      (m.checkpoint I currentStep checkpointDirectory w).world =
        m.slaveList.foldl
          (fun w1 s => (I.checkpoint s currentStep checkpointDirectory w1).2) w ∧
      (m.checkpoint I currentStep checkpointDirectory w).master = m := by
  have h := forEachSlave_of_handlers_ok
    (fun slave => I.checkpoint slave currentStep checkpointDirectory)
    (fun slave => Event.checkpoint slave currentStep checkpointDirectory) m.slaveList w hok
  exact ⟨congrArg (fun x => x.1) h, congrArg (fun x => x.2.2) h, congrArg (fun x => x.2.1) h, rfl⟩

/-- C3, witness: three loaded slaves, `checkpoint(10, "/ckpt")`; the three handlers have run (the
world counts three handler calls). -/
theorem checkpoint_calls_every_slave_in_order_witness :
    (Master.checkpoint (demoSlave none) ((Master.new (demoHelp 3 true none)).pluginLoad 0).master
        10 "/ckpt" 0).result = .ok () ∧
      (Master.checkpoint (demoSlave none) ((Master.new (demoHelp 3 true none)).pluginLoad 0).master
        10 "/ckpt" 0).trace =
      [Event.checkpoint 10 10 "/ckpt" (.ok ()), Event.checkpoint 11 10 "/ckpt" (.ok ()),
        Event.checkpoint 12 10 "/ckpt" (.ok ())] ∧
      (Master.checkpoint (demoSlave none) ((Master.new (demoHelp 3 true none)).pluginLoad 0).master
        10 "/ckpt" 0).world = 3 :=
  ⟨(checkpoint_calls_every_slave_in_order (demoSlave none)
      ((Master.new (demoHelp 3 true none)).pluginLoad 0).master 10 "/ckpt" 0
      (fun _ _ _ _ => rfl)).1,
    (checkpoint_calls_every_slave_in_order (demoSlave none)
      ((Master.new (demoHelp 3 true none)).pluginLoad 0).master 10 "/ckpt" 0
      (fun _ _ _ _ => rfl)).2.1.trans (by decide),
    (checkpoint_calls_every_slave_in_order (demoSlave none)
      ((Master.new (demoHelp 3 true none)).pluginLoad 0).master 10 "/ckpt" 0
      (fun _ _ _ _ => rfl)).2.2.1.trans (by decide)⟩

/-- C4, counterexample: three slaves are loaded and the `notify` handler of the second one throws
`"InstanceOperationError"`; `Master::notify` nevertheless returns normally and has called the
handler of no slave, neither the first nor the second. -/
theorem notify_forwards_fail_fast_counterexample :
    ((Master.new (demoHelp 3 true none)).pluginLoad 0).master.slaveList = [10, 11, 12] ∧
      ((demoSlave (some 11)).notify 11 5 0).1 = .error "InstanceOperationError" ∧
      (Master.notify (demoSlave (some 11)) ((Master.new (demoHelp 3 true none)).pluginLoad 0).master
        5 0).result = .ok () ∧
      (Master.notify (demoSlave (some 11)) ((Master.new (demoHelp 3 true none)).pluginLoad 0).master
        5 0).trace = [] := by
  decide

/-- C4, amended: `Master::notify(currentStep)` forwards nothing: for every list of slaves, every
step and whatever the `notify` handlers of the slaves would do, it calls no handler, returns
normally and leaves the `Master` and the world as they were. -/
theorem notify_calls_no_slave (I : ISlave S E W) (m : Master S E W) (currentStep : Nat) (w : W) :
    (m.notify I currentStep w).result = .ok () ∧ (m.notify I currentStep w).trace = [] ∧
      (m.notify I currentStep w).master = m ∧ (m.notify I currentStep w).world = w :=
  ⟨rfl, rfl, rfl, rfl⟩

/-- C6: whenever the number of requested slaves is positive and `validateOptions` throws `e`,
`pluginLoad` throws `e`, makes no call of `create`, and leaves the `Master`, hence its list of
slaves, exactly as it was before the call (empty on a fresh `Master`). -/
theorem pluginLoad_invalid_constructs_nothing (m : Master S E W) (w : W) (e : E)
    (hn : 0 < m.slaveHelp.getNumPlugins)
    (hv : (m.slaveHelp.validateOptions w).1 = .error e) :
    (m.pluginLoad w).result = .error e ∧
      (m.pluginLoad w).trace.filterMap Event.createArgs? = [] ∧
      (m.pluginLoad w).master = m ∧
      (m.pluginLoad w).master.slaveList = m.slaveList := by
  rw [pluginLoad_of_invalid m w e hn hv]
  simp [Event.createArgs?]

/-- C6, witness: two requested slaves, invalid options, fresh `Master`. -/
theorem pluginLoad_invalid_constructs_nothing_witness :
    0 < (Master.new (demoHelp 2 false none)).slaveHelp.getNumPlugins ∧
      ((Master.new (demoHelp 2 false none)).pluginLoad 0).result = .error "ConfigurationError" ∧
      ((Master.new (demoHelp 2 false none)).pluginLoad 0).master.slaveList = [] :=
  ⟨by decide,
    (pluginLoad_invalid_constructs_nothing (Master.new (demoHelp 2 false none)) 0
      "ConfigurationError" (by decide) (by decide)).1,
    (pluginLoad_invalid_constructs_nothing (Master.new (demoHelp 2 false none)) 0
      "ConfigurationError" (by decide) (by decide)).2.2.2⟩

/-- C7, counterexample: three slaves are requested on a fresh `Master`, `create` returns slave
`10` at index `0` and throws at index `1`. `pluginLoad` throws and makes no further `create`
call, but the list is not empty afterwards: it holds the slave built before the failure. -/
theorem pluginLoad_failed_create_leaves_empty_counterexample :
    ((Master.new (demoHelp 3 true (some 1))).pluginLoad 0).result = .error "ConstructionError" ∧
      ((Master.new (demoHelp 3 true (some 1))).pluginLoad 0).trace =
        [Event.getNumPlugins 3, Event.validateOptions (.ok ()), Event.create 0 none (.ok 10),
          Event.create 1 none (.error "ConstructionError")] ∧
      ((Master.new (demoHelp 3 true (some 1))).pluginLoad 0).master.slaveList = [10] ∧
      ((Master.new (demoHelp 3 true (some 1))).pluginLoad 0).master.slaveList ≠ [] := by
  decide

/-- C7, amended: when a `create` call at index `j` throws `e` during `pluginLoad`, then `j` is
below the number of requested slaves, `pluginLoad` throws `e`, its `create` calls are exactly
those with the indices `0, ..., j` (none with a greater index), and the list afterwards is the
list before the call followed by the `j` slaves built before the failure: nothing is rolled
back. -/
theorem pluginLoad_failed_create_keeps_built (m : Master S E W) (w : W) (j : Nat)
    (c : Option MappingDesc) (e : E)
    (hfail : Event.create j c (.error e) ∈ (m.pluginLoad w).trace) :
    (m.pluginLoad w).result = .error e ∧ j < m.slaveHelp.getNumPlugins ∧
      (m.pluginLoad w).trace.filterMap Event.createArgs? =
        (List.range (j + 1)).map (fun k => (k, m.m_cellDescription)) ∧
      (m.pluginLoad w).master.slaveList =
        m.slaveList ++ (m.pluginLoad w).trace.filterMap Event.created? ∧
      ((m.pluginLoad w).trace.filterMap Event.created?).length = j ∧
      (m.pluginLoad w).master.slaveList.length = m.slaveList.length + j := by
  have hm := (pluginLoad_master m w).1
  have hlen : ((m.pluginLoad w).trace.filterMap Event.created?).length = j →
      (m.pluginLoad w).master.slaveList.length = m.slaveList.length + j := by
    intro h
    rw [hm, List.length_append, h]
  rcases Nat.eq_zero_or_pos m.slaveHelp.getNumPlugins with hn | hn
  · rw [pluginLoad_of_zero m w hn] at hfail
    simp at hfail
  · cases hv : (m.slaveHelp.validateOptions w).1 with
    | error e2 =>
      rw [pluginLoad_of_invalid m w e2 hn hv] at hfail
      simp at hfail
    | ok u =>
      cases u
      have hunfold := pluginLoad_of_valid m w hn hv
      rw [hunfold] at hfail
      simp only [List.mem_cons, reduceCtorEq, false_or] at hfail
      obtain ⟨h1, _, h3, h4, h5⟩ := createLoop_of_mem_error _ _ _ _ _ _ _ _ _ hfail
      have hargs := (createLoop_args m.slaveHelp m.m_cellDescription
        m.slaveHelp.getNumPlugins 0 m.slaveList (m.slaveHelp.validateOptions w).2).1
      rw [h4] at hargs
      have hcount : ((m.pluginLoad w).trace.filterMap Event.created?).length = j := by
        rw [hunfold]
        simpa [Event.created?] using h5
      refine ⟨?_, by omega, ?_, hm, hcount, hlen hcount⟩
      · rw [hunfold]
        exact h1
      · rw [hunfold]
        simpa [Event.createArgs?, List.range_eq_range'] using hargs

/-- C7, witness: the load of the counterexample, where `create` throws at index `1`. -/
theorem pluginLoad_failed_create_keeps_built_witness :
    Event.create 1 none (.error "ConstructionError") ∈
        ((Master.new (demoHelp 3 true (some 1))).pluginLoad 0).trace ∧
      ((Master.new (demoHelp 3 true (some 1))).pluginLoad 0).result
        = .error "ConstructionError" ∧
      ((Master.new (demoHelp 3 true (some 1))).pluginLoad 0).master.slaveList.length = 0 + 1 :=
  ⟨by decide,
    (pluginLoad_failed_create_keeps_built (Master.new (demoHelp 3 true (some 1))) 0 1 none
      "ConstructionError" (by decide)).1,
    (pluginLoad_failed_create_keeps_built (Master.new (demoHelp 3 true (some 1))) 0 1 none
      "ConstructionError" (by decide)).2.2.2.2.2⟩

/-- C8: in every state of the `Master` (never loaded, loaded with any number of slaves, already
unloaded) `pluginUnload` returns normally and leaves the list empty; so `pluginUnload` after
`pluginLoad` leaves the list empty, and a second `pluginUnload` changes nothing. -/
theorem pluginUnload_empties_and_is_idempotent (m : Master S E W) (w : W) :
    (m.pluginUnload w).result = .ok () ∧ (m.pluginUnload w).master.slaveList = [] ∧
      ((m.pluginLoad w).master.pluginUnload (m.pluginLoad w).world).master.slaveList = [] ∧
      ((m.pluginUnload w).master.pluginUnload (m.pluginUnload w).world).result = .ok () ∧
      ((m.pluginUnload w).master.pluginUnload (m.pluginUnload w).world).master =
        (m.pluginUnload w).master ∧
      ((m.pluginUnload w).master.pluginUnload (m.pluginUnload w).world).world =
        (m.pluginUnload w).world :=
  ⟨rfl, rfl, rfl, rfl, rfl, rfl⟩

/-- C9, counterexample: one slave is requested and the host calls `pluginLoad` twice, both
calls returning normally. The most recent lifecycle call is `pluginLoad`, yet the list holds
two slaves, not one. -/
theorem loaded_size_is_requested_count_counterexample :
    (Master.run (demoSlave none) [Op.pluginLoad, Op.pluginLoad]
        (Master.new (demoHelp 1 true none)) 0).result = .ok () ∧
      loadedAfter false [Op.pluginLoad, Op.pluginLoad] = true ∧
      (Master.run (demoSlave none) [Op.pluginLoad, Op.pluginLoad]
        (Master.new (demoHelp 1 true none)) 0).master.slaveList = [10, 10] ∧
      (Master.run (demoSlave none) [Op.pluginLoad, Op.pluginLoad]
        (Master.new (demoHelp 1 true none)) 0).master.slaveList.length ≠
          (demoHelp 1 true none).getNumPlugins := by
  decide

/-- C9, amended: after every finite sequence of calls of `setMappingDescription`, `pluginLoad`,
`pluginUnload`, `notify`, `onParticleLeave`, `checkpoint` and `restart` that all returned
normally, starting from a fresh `Master` with `n` requested slaves, the list holds `n` slaves
for every `pluginLoad` made since the most recent `pluginUnload` (or since construction): `n`
when there was exactly one such `pluginLoad`, and none when the most recent lifecycle call was
not `pluginLoad` (before any load, after an unload) or when `n = 0`. -/
theorem run_list_length (I : ISlave S E W) (slaveHelp : IHelp S E W) (ops : List Op) (w : W)
    (hok : (Master.run I ops (Master.new slaveHelp) w).result = .ok ()) :
    (Master.run I ops (Master.new slaveHelp) w).master.slaveList.length =
        slaveHelp.getNumPlugins * loadsAfter 0 ops ∧
      (loadsAfter 0 ops = 1 →
        (Master.run I ops (Master.new slaveHelp) w).master.slaveList.length =
          slaveHelp.getNumPlugins) ∧
      (loadedAfter false ops = false →
        (Master.run I ops (Master.new slaveHelp) w).master.slaveList = []) ∧
      (slaveHelp.getNumPlugins = 0 →
        (Master.run I ops (Master.new slaveHelp) w).master.slaveList = []) := by
  have h := run_length I ops (Master.new slaveHelp) w 0 (by simp [Master.new]) hok
  have hn : (Master.new slaveHelp).slaveHelp.getNumPlugins = slaveHelp.getNumPlugins := rfl
  rw [hn] at h
  refine ⟨h, fun h1 => ?_, fun hl => ?_, fun h0 => ?_⟩
  · rw [h, h1, Nat.mul_one]
  · rw [loadsAfter_of_not_loaded ops false 0 (fun _ => rfl) hl, Nat.mul_zero] at h
    exact List.length_eq_zero.mp h
  · rw [h0, Nat.zero_mul] at h
    exact List.length_eq_zero.mp h

/-- C9, witness: three requested slaves; bind, load, step, checkpoint, unload, load, restart,
domain-leave event. -/
theorem run_list_length_witness :
    (Master.run (demoSlave none)
        [Op.setMappingDescription (some 7), Op.pluginLoad, Op.notify 1, Op.checkpoint 1 "/ckpt",
          Op.pluginUnload, Op.pluginLoad, Op.restart 1 "/ckpt", Op.onParticleLeave "e" 2]
        (Master.new (demoHelp 3 true none)) 0).result = .ok () ∧
      (Master.run (demoSlave none)
        [Op.setMappingDescription (some 7), Op.pluginLoad, Op.notify 1, Op.checkpoint 1 "/ckpt",
          Op.pluginUnload, Op.pluginLoad, Op.restart 1 "/ckpt", Op.onParticleLeave "e" 2]
        (Master.new (demoHelp 3 true none)) 0).master.slaveList.length = 3 :=
  ⟨by decide,
    (run_list_length (demoSlave none) (demoHelp 3 true none)
      [Op.setMappingDescription (some 7), Op.pluginLoad, Op.notify 1, Op.checkpoint 1 "/ckpt",
        Op.pluginUnload, Op.pluginLoad, Op.restart 1 "/ckpt", Op.onParticleLeave "e" 2]
      0 (by decide)).2.1 (by decide)⟩

/-- C10: for every list of slaves and all arguments, when no handler fails (every handler,
called on the world left by the handlers of the slaves before it, returns normally), `restart`
and `onParticleLeave` each return normally after running the corresponding handler of every
slave exactly once, in list order, with the arguments they were given: the world afterwards is
the one reached by running these handlers one after the other, and the calls made are one per
slave in list order. The slaves they visit, in order, are those that `checkpoint` visits on the
same list: the list itself. -/
theorem restart_onParticleLeave_visit_like_checkpoint (I : ISlave S E W) (m : Master S E W)
    (restartStep : Nat) (restartDirectory speciesName : String) (direction : Int)
    (currentStep : Nat) (checkpointDirectory : String) (w1 w2 w3 : W)
    (hr : ∀ (pre : List S) (slave : S) (post : List S), m.slaveList = pre ++ slave :: post →
      (I.restart slave restartStep restartDirectory
        (pre.foldl (fun v s => (I.restart s restartStep restartDirectory v).2) w1)).1 = .ok ())
    (hp : ∀ (pre : List S) (slave : S) (post : List S), m.slaveList = pre ++ slave :: post →
      (I.onParticleLeave slave speciesName direction
        (pre.foldl (fun v s => (I.onParticleLeave s speciesName direction v).2) w2)).1 = .ok ())
    (hc : ∀ (pre : List S) (slave : S) (post : List S), m.slaveList = pre ++ slave :: post →
      (I.checkpoint slave currentStep checkpointDirectory
        (pre.foldl (fun v s => (I.checkpoint s currentStep checkpointDirectory v).2) w3)).1
        = .ok ()) :
    (m.restart I restartStep restartDirectory w1).result = .ok () ∧
      (m.restart I restartStep restartDirectory w1).trace =
        m.slaveList.map (fun slave => Event.restart slave restartStep restartDirectory (.ok ())) ∧
      (m.restart I restartStep restartDirectory w1).world =
        m.slaveList.foldl (fun v s => (I.restart s restartStep restartDirectory v).2) w1 ∧
      (m.onParticleLeave I speciesName direction w2).result = .ok () ∧
      (m.onParticleLeave I speciesName direction w2).trace =
        m.slaveList.map (fun slave => Event.onParticleLeave slave speciesName direction (.ok ())) ∧
      (m.onParticleLeave I speciesName direction w2).world =
        m.slaveList.foldl (fun v s => (I.onParticleLeave s speciesName direction v).2) w2 ∧
      (m.restart I restartStep restartDirectory w1).trace.filterMap Event.slave? =
        (m.checkpoint I currentStep checkpointDirectory w3).trace.filterMap Event.slave? ∧
      (m.onParticleLeave I speciesName direction w2).trace.filterMap Event.slave? =
        (m.checkpoint I currentStep checkpointDirectory w3).trace.filterMap Event.slave? ∧
      (m.checkpoint I currentStep checkpointDirectory w3).trace.filterMap Event.slave? =
        m.slaveList := by
  have hr0 := forEachSlave_of_handlers_ok
    (fun slave => I.restart slave restartStep restartDirectory)
    (fun slave => Event.restart slave restartStep restartDirectory) m.slaveList w1 hr
  have hp0 := forEachSlave_of_handlers_ok
    (fun slave => I.onParticleLeave slave speciesName direction)
    (fun slave => Event.onParticleLeave slave speciesName direction) m.slaveList w2 hp
  have hc0 := forEachSlave_of_handlers_ok
    (fun slave => I.checkpoint slave currentStep checkpointDirectory)
    (fun slave => Event.checkpoint slave currentStep checkpointDirectory) m.slaveList w3 hc
  have hr2 : (m.restart I restartStep restartDirectory w1).trace = _ :=
    congrArg (fun x => x.2.2) hr0
  have hp2 : (m.onParticleLeave I speciesName direction w2).trace = _ :=
    congrArg (fun x => x.2.2) hp0
  have hc2 : (m.checkpoint I currentStep checkpointDirectory w3).trace = _ :=
    congrArg (fun x => x.2.2) hc0
  have vr := visited_map (fun slave => Event.restart slave restartStep restartDirectory
    (.ok () : Except E Unit)) (fun _ => rfl) m.slaveList
  have vp := visited_map (fun slave => Event.onParticleLeave slave speciesName direction
    (.ok () : Except E Unit)) (fun _ => rfl) m.slaveList
  have vc := visited_map (fun slave => Event.checkpoint slave currentStep checkpointDirectory
    (.ok () : Except E Unit)) (fun _ => rfl) m.slaveList
  refine ⟨congrArg (fun x => x.1) hr0, hr2, congrArg (fun x => x.2.1) hr0,
    congrArg (fun x => x.1) hp0, hp2, congrArg (fun x => x.2.1) hp0, ?_, ?_, ?_⟩
  · rw [hr2, hc2]
    exact vr.trans vc.symm
  · rw [hp2, hc2]
    exact vp.trans vc.symm
  · rw [hc2]
    exact vc

/-- C10, witness: three loaded slaves, `restart(10, "/ckpt")` and `onParticleLeave("e", 2)`; in
each case the three handlers have run (the world counts three handler calls). -/
theorem restart_onParticleLeave_visit_like_checkpoint_witness :
    (Master.restart (demoSlave none) ((Master.new (demoHelp 3 true none)).pluginLoad 0).master
        10 "/ckpt" 0).trace =
      [Event.restart 10 10 "/ckpt" (.ok ()), Event.restart 11 10 "/ckpt" (.ok ()),
        Event.restart 12 10 "/ckpt" (.ok ())] ∧
    (Master.restart (demoSlave none) ((Master.new (demoHelp 3 true none)).pluginLoad 0).master
        10 "/ckpt" 0).world = 3 ∧
    (Master.onParticleLeave (demoSlave none)
        ((Master.new (demoHelp 3 true none)).pluginLoad 0).master "e" 2 0).trace =
      [Event.onParticleLeave 10 "e" 2 (.ok ()), Event.onParticleLeave 11 "e" 2 (.ok ()),
        Event.onParticleLeave 12 "e" 2 (.ok ())] ∧
    (Master.onParticleLeave (demoSlave none)
        ((Master.new (demoHelp 3 true none)).pluginLoad 0).master "e" 2 0).world = 3 :=
  ⟨(restart_onParticleLeave_visit_like_checkpoint (demoSlave none)
      ((Master.new (demoHelp 3 true none)).pluginLoad 0).master 10 "/ckpt" "e" 2 10 "/ckpt" 0 0 0
      (fun _ _ _ _ => rfl) (fun _ _ _ _ => rfl) (fun _ _ _ _ => rfl)).2.1.trans (by decide),
    (restart_onParticleLeave_visit_like_checkpoint (demoSlave none)
      ((Master.new (demoHelp 3 true none)).pluginLoad 0).master 10 "/ckpt" "e" 2 10 "/ckpt" 0 0 0
      (fun _ _ _ _ => rfl) (fun _ _ _ _ => rfl) (fun _ _ _ _ => rfl)).2.2.1.trans (by decide),
    (restart_onParticleLeave_visit_like_checkpoint (demoSlave none)
      ((Master.new (demoHelp 3 true none)).pluginLoad 0).master 10 "/ckpt" "e" 2 10 "/ckpt" 0 0 0
      (fun _ _ _ _ => rfl) (fun _ _ _ _ => rfl) (fun _ _ _ _ => rfl)).2.2.2.2.1.trans (by decide),
    (restart_onParticleLeave_visit_like_checkpoint (demoSlave none)
      ((Master.new (demoHelp 3 true none)).pluginLoad 0).master 10 "/ckpt" "e" 2 10 "/ckpt" 0 0 0
      (fun _ _ _ _ => rfl) (fun _ _ _ _ => rfl) (fun _ _ _ _ => rfl)).2.2.2.2.2.1.trans
      (by decide)⟩

/-- C11: for every help object with name `N` and description `D`, `pluginGetName` returns
`N ++ ": " ++ D`, and it returns the same on a fresh `Master`, after `pluginLoad` (whatever the
number of requested slaves, zero included), after `pluginUnload`, and after any run of host
calls, however the run ends. -/
theorem pluginGetName_is_name_colon_description (I : ISlave S E W) (slaveHelp : IHelp S E W)
    (ops : List Op) (w : W) :
    (Master.new slaveHelp).pluginGetName =
        slaveHelp.getName ++ ": " ++ slaveHelp.getDescription ∧
      ((Master.new slaveHelp).pluginLoad w).master.pluginGetName =
        slaveHelp.getName ++ ": " ++ slaveHelp.getDescription ∧
      (((Master.new slaveHelp).pluginLoad w).master.pluginUnload
          ((Master.new slaveHelp).pluginLoad w).world).master.pluginGetName =
        slaveHelp.getName ++ ": " ++ slaveHelp.getDescription ∧
      (Master.run I ops (Master.new slaveHelp) w).master.pluginGetName =
        slaveHelp.getName ++ ": " ++ slaveHelp.getDescription := by
  have hload := (pluginLoad_master (Master.new slaveHelp) w).2.1
  have hrun := run_slaveHelp I ops (Master.new slaveHelp) w
  refine ⟨rfl, ?_, ?_, ?_⟩
  · unfold Master.pluginGetName
    rw [hload]
    rfl
  · unfold Master.pluginGetName Master.pluginUnload
    simp only
    rw [hload]
    rfl
  · unfold Master.pluginGetName
    rw [hrun]
    rfl

/-- C12: `setMappingDescription` is idempotent and the last value wins: binding `c2` after `c1`
leaves the same `Master` and world as binding `c2` alone, binding `c` twice is binding it once,
the call returns normally and does not touch the list of slaves, and every `create` call of a
`pluginLoad` made afterwards gets exactly the last bound value. -/
theorem setMappingDescription_last_value_wins (m : Master S E W) (c1 c2 : Option MappingDesc)
    (w w2 : W) :
    ((m.setMappingDescription c1 w).master.setMappingDescription c2
        (m.setMappingDescription c1 w).world).master = (m.setMappingDescription c2 w).master ∧
      ((m.setMappingDescription c1 w).master.setMappingDescription c2
        (m.setMappingDescription c1 w).world).world = (m.setMappingDescription c2 w).world ∧
      ((m.setMappingDescription c2 w).master.setMappingDescription c2
        (m.setMappingDescription c2 w).world).master = (m.setMappingDescription c2 w).master ∧
      (m.setMappingDescription c2 w).result = .ok () ∧
      (m.setMappingDescription c2 w).master.slaveList = m.slaveList ∧
      (m.setMappingDescription c2 w).master.m_cellDescription = c2 ∧
      (∀ (j : Nat) (c : Option MappingDesc) (r : Except E S),
        Event.create j c r ∈
          (((m.setMappingDescription c1 w).master.setMappingDescription c2
            (m.setMappingDescription c1 w).world).master.pluginLoad w2).trace → c = c2) :=
  ⟨rfl, rfl, rfl, rfl, rfl, rfl, fun j c r h => pluginLoad_create_cell _ w2 j c r h⟩

/-- C12, witness: `7` is bound, then `9`; the load of two slaves that follows passes `9` to both
`create` calls. -/
theorem setMappingDescription_last_value_wins_witness :
    (((Master.new (demoHelp 2 true none)).setMappingDescription (some 7) 0).master
        |>.setMappingDescription (some 9) 0).master.slaveList = [] ∧
      ((((Master.new (demoHelp 2 true none)).setMappingDescription (some 7) 0).master
        |>.setMappingDescription (some 9) 0).master.pluginLoad 0).trace.filterMap
          Event.createArgs? = [(0, some 9), (1, some 9)] ∧
      (some 9 : Option MappingDesc) = some 9 :=
  ⟨by decide, by decide,
    (setMappingDescription_last_value_wins (Master.new (demoHelp 2 true none)) (some 7) (some 9)
      0 0).2.2.2.2.2.2 1 (some 9) (.ok 11) (by decide)⟩

/-- C13: `pluginLoad` appends and never replaces. For every list `L` already held and every
number `n` of requested slaves: a load that returns normally leaves `L` followed by the slaves
returned by the `create` calls `0, ..., n - 1`, so `L.length + n` slaves; a second load that
returns normally, with no unload in between, issues the indices `0, ..., n - 1` again, so that
`L.length + 2 * n` slaves are left (`2 * n` from a fresh `Master`) and `validateOptions` was
called twice when `n > 0`; and with `n = 0` a load leaves the `Master` unchanged. -/
theorem pluginLoad_appends (m : Master S E W) (w : W) :
    ((m.pluginLoad w).result = .ok () →
      (m.pluginLoad w).master.slaveList =
        m.slaveList ++ (m.pluginLoad w).trace.filterMap Event.created? ∧
      (m.pluginLoad w).trace.filterMap Event.createArgs? =
        (List.range m.slaveHelp.getNumPlugins).map (fun k => (k, m.m_cellDescription)) ∧
      ((m.pluginLoad w).trace.filterMap Event.created?).length = m.slaveHelp.getNumPlugins ∧
      (m.pluginLoad w).master.slaveList.length =
        m.slaveList.length + m.slaveHelp.getNumPlugins) ∧
    ((m.pluginLoad w).result = .ok () →
      ((m.pluginLoad w).master.pluginLoad (m.pluginLoad w).world).result = .ok () →
      ((m.pluginLoad w).master.pluginLoad (m.pluginLoad w).world).master.slaveList.length =
        m.slaveList.length + 2 * m.slaveHelp.getNumPlugins ∧
      ((m.pluginLoad w).trace ++
          ((m.pluginLoad w).master.pluginLoad (m.pluginLoad w).world).trace).filterMap
            Event.createArgs? =
        (List.range m.slaveHelp.getNumPlugins).map (fun k => (k, m.m_cellDescription)) ++
          (List.range m.slaveHelp.getNumPlugins).map (fun k => (k, m.m_cellDescription)) ∧
      (((m.pluginLoad w).trace ++
          ((m.pluginLoad w).master.pluginLoad (m.pluginLoad w).world).trace).filter
            Event.isValidateOptions).length =
        if 0 < m.slaveHelp.getNumPlugins then 2 else 0) ∧
    (m.slaveHelp.getNumPlugins = 0 →
      (m.pluginLoad w).result = .ok () ∧ (m.pluginLoad w).master = m ∧
      (m.pluginLoad w).trace.filterMap Event.createArgs? = []) := by
  have hm := pluginLoad_master m w
  refine ⟨fun h1 => ?_, fun h1 h2 => ?_, fun h0 => ?_⟩
  · obtain ⟨a, b, c⟩ := pluginLoad_of_ok m w h1
    exact ⟨hm.1, a, b, c⟩
  · obtain ⟨a1, _, c1⟩ := pluginLoad_of_ok m w h1
    obtain ⟨a2, _, c2⟩ := pluginLoad_of_ok (m.pluginLoad w).master (m.pluginLoad w).world h2
    have v1 := pluginLoad_validate_calls m w
    have v2 := pluginLoad_validate_calls (m.pluginLoad w).master (m.pluginLoad w).world
    rw [hm.2.1] at a2 c2 v2
    rw [hm.2.2] at a2
    refine ⟨?_, ?_, ?_⟩
    · rw [c2, c1]
      omega
    · rw [List.filterMap_append, a1, a2]
    · rw [List.filter_append, List.length_append, v1, v2]
      split <;> rfl
  · rw [pluginLoad_of_zero m w h0]
    exact ⟨rfl, rfl, rfl⟩

/-- C13, witness: a `Master` that already holds the slaves `1, 2` loads three slaves, twice. -/
theorem pluginLoad_appends_witness :
    (Master.pluginLoad ⟨[1, 2], demoHelp 3 true none, none⟩ 0).result = .ok () ∧
      (Master.pluginLoad ⟨[1, 2], demoHelp 3 true none, none⟩ 0).master.slaveList.length
        = 2 + 3 ∧
      ((Master.pluginLoad ⟨[1, 2], demoHelp 3 true none, none⟩ 0).master.pluginLoad
        (Master.pluginLoad ⟨[1, 2], demoHelp 3 true none, none⟩ 0).world).master.slaveList.length
        = 2 + 2 * 3 :=
  ⟨by decide,
    ((pluginLoad_appends ⟨[1, 2], demoHelp 3 true none, none⟩ 0).1 (by decide)).2.2.2,
    ((pluginLoad_appends ⟨[1, 2], demoHelp 3 true none, none⟩ 0).2.1 (by decide) (by decide)).1⟩

/-- C14: in every state and for all arguments, `checkpoint`, `restart`, `onParticleLeave` and
`notify` leave the `Master` object as it was (the list of slaves with its order and length,
`slaveHelp`, the bound mapping description), whether they return normally or a handler throws
part-way, and none of the calls they make is a call of `getNumPlugins`, `validateOptions` or
`create`. -/
theorem dispatch_leaves_master_unchanged (I : ISlave S E W) (m : Master S E W) (step : Nat)
    (dir speciesName : String) (direction : Int) (w : W) :
    ((m.checkpoint I step dir w).master = m ∧
      ∀ x ∈ (m.checkpoint I step dir w).trace, x.isHelpCall = false) ∧
    ((m.restart I step dir w).master = m ∧
      ∀ x ∈ (m.restart I step dir w).trace, x.isHelpCall = false) ∧
    ((m.onParticleLeave I speciesName direction w).master = m ∧
      ∀ x ∈ (m.onParticleLeave I speciesName direction w).trace, x.isHelpCall = false) ∧
    ((m.notify I step w).master = m ∧
      ∀ x ∈ (m.notify I step w).trace, x.isHelpCall = false) :=
  ⟨⟨rfl, forEachSlave_no_help_call (fun slave => I.checkpoint slave step dir)
      (fun slave => Event.checkpoint slave step dir) (fun _ _ => rfl) m.slaveList w⟩,
    ⟨rfl, forEachSlave_no_help_call (fun slave => I.restart slave step dir)
      (fun slave => Event.restart slave step dir) (fun _ _ => rfl) m.slaveList w⟩,
    ⟨rfl, forEachSlave_no_help_call (fun slave => I.onParticleLeave slave speciesName direction)
      (fun slave => Event.onParticleLeave slave speciesName direction) (fun _ _ => rfl)
      m.slaveList w⟩,
    ⟨rfl, fun x hx => by simp [Master.notify] at hx⟩⟩

/-- C14, witness: the `checkpoint` handler of the second of three slaves throws; the call fails
part-way and the list of slaves is as before. -/
theorem dispatch_leaves_master_unchanged_witness :
    (Master.checkpoint (demoSlave (some 11)) ⟨[10, 11, 12], demoHelp 3 true none, some 7⟩
        4 "/ckpt" 0).result = .error "InstanceOperationError" ∧
      (Master.checkpoint (demoSlave (some 11)) ⟨[10, 11, 12], demoHelp 3 true none, some 7⟩
        4 "/ckpt" 0).master.slaveList = [10, 11, 12] ∧
      (Master.checkpoint (demoSlave (some 11)) ⟨[10, 11, 12], demoHelp 3 true none, some 7⟩
        4 "/ckpt" 0).master.m_cellDescription = some 7 :=
  ⟨by decide,
    congrArg Master.slaveList (dispatch_leaves_master_unchanged (demoSlave (some 11))
      ⟨[10, 11, 12], demoHelp 3 true none, some 7⟩ 4 "/ckpt" "e" 2 0).1.1,
    congrArg Master.m_cellDescription (dispatch_leaves_master_unchanged (demoSlave (some 11))
      ⟨[10, 11, 12], demoHelp 3 true none, some 7⟩ 4 "/ckpt" "e" 2 0).1.1⟩

end picongpu.plugins.multi
